import Mathlib

/-!
Verification development for `solar_system_orbits.py`.

The program computes, for each calendar year in a range, the minimum
Earth–Mars distance over daily samples (the "Closest-Approach Scanner"),
estimates Hohmann transfer times from heliocentric radii at the chosen
dates (the "Transfer-Time Estimator"), formats chart point labels, and
applies a display-only log-compression transform `radial_exaggerate`.

Modelling conventions:
* dates are pairs (year, dayOfYear) in the proleptic Gregorian calendar,
  equivalent to Python `datetime` dates for the purpose at hand;
* the ephemeris provider (skyfield, external) is a parameter
  `getXY : String → Date → ℝ × ℝ`, and the scanner's distance function is
  a parameter `dist`;
* exact values (ℚ) stand in for the comparisons on floats in the scan,
  and real numbers (ℝ) stand in for floats in the closed-form formulas;
* a Python exception raised by the ephemeris is modelled by an
  `Option`-valued distance function, `none` meaning the epoch cannot be
  resolved, and propagation by the `Option`/abort structure of
  `windowsLoopE`.
-/

namespace SolarSystemOrbits

/-- Configuration constant `AXIS_LIMIT = 40` (AU plot limits). -/
def AXIS_LIMIT : ℚ := 40

/-- Configuration constant `GM_SUN = 0.0002959122082855911`
(gravitational parameter of the Sun in AU^3/day^2); the decimal literal
is represented exactly. -/
noncomputable def GM_SUN : ℝ := 0.0002959122082855911

/-- Gregorian leap-year rule, as implemented by Python's `datetime`
(proleptic Gregorian calendar). -/
def isLeap (y : Int) : Bool :=
  (y % 4 == 0 && y % 100 != 0) || y % 400 == 0

/-- Number of days of calendar year `y`. -/
def daysInYear (y : Int) : Nat :=
  if isLeap y then 366 else 365

/-- A calendar date, represented as a year plus a 0-based day-of-year
index (`0` = January 1, `daysInYear year - 1` = December 31).  This is in
bijection with Python `datetime` dates at midnight. -/
structure Date where
  year : Int
  dayOfYear : Nat
deriving DecidableEq, Repr

/-- The day after `d` (Python `d + timedelta(days=1)`). -/
def succDay (d : Date) : Date :=
  if d.dayOfYear + 1 < daysInYear d.year then ⟨d.year, d.dayOfYear + 1⟩
  else ⟨d.year + 1, 0⟩

/-- Python `datetime(y, 1, 1) + timedelta(days=offset)`. -/
def jan1Plus (y : Int) : Nat → Date
  | 0 => ⟨y, 0⟩
  | n + 1 => succDay (jan1Plus y n)

/-- One row of the scanner's output: the year scanned, the best date found
and the distance there (`years`/`dates`/`dists` entries of
`compute_launch_windows`). -/
structure ApproachRecord where
  year : Int
  date : Date
  distance : ℚ
deriving DecidableEq, Repr

/-- One step of the inner loop of `compute_launch_windows`:
`best_dist` starts at `np.inf` (modelled by `none`, so the first
comparison always succeeds) and is replaced exactly when
`dist < best_dist` holds strictly.  The best date is kept as its day
offset from January 1. -/
def bestUpd (best : Option (Nat × ℚ)) (offset : Nat) (v : ℚ) :
    Option (Nat × ℚ) :=
  match best with
  | none => some (offset, v)
  | some b => if v < b.2 then some (offset, v) else some b

/-- Inner loop of `compute_launch_windows` for one year: scan day offsets
`0, …, 365` from January 1 and keep the strict minimum. -/
def scanYear (dist : Date → ℚ) (y : Int) : Option (Nat × ℚ) :=
  (List.range 366).foldl
    (fun best offset => bestUpd best offset (dist (jan1Plus y offset))) none

/-- Python `range(start_year, end_year + 1)` as a list of years. -/
def yearsRange (s e : Int) : List Int :=
  (List.range (e + 1 - s).toNat).map (fun (i : Nat) => s + (i : Int))

/-- Body of the outer loop of `compute_launch_windows` for one year: the
`(year, best_date, best_dist)` triple appended to `years`/`dates`/`dists`.
The `none` branch is unreachable (the offset list is nonempty). -/
def recordFor (dist : Date → ℚ) (y : Int) : ApproachRecord :=
  match scanYear dist y with
  | some (o, v) => ⟨y, jan1Plus y o, v⟩
  | none => ⟨y, ⟨y, 0⟩, 0⟩

/-- Outer loop of `compute_launch_windows`: one record per year of
`range(start_year, end_year + 1)`. -/
def compute_launch_windows (dist : Date → ℚ) (s e : Int) :
    List ApproachRecord :=
  (yearsRange s e).map (recordFor dist)

/-- Inner loop of `compute_launch_windows` with a fallible ephemeris:
`none` from `dist` models the exception skyfield raises when an epoch
cannot be resolved, which aborts the whole scan of the year. -/
def scanYearE (dist : Date → Option ℚ) (y : Int) :
    Option (Option (Nat × ℚ)) :=
  (List.range 366).foldlM
    (fun best offset =>
      match dist (jan1Plus y offset) with
      | none => none
      | some v => some (bestUpd best offset v)) none

/-- Outer loop with a fallible ephemeris.  The result pairs the records
appended (and printed) before any failure with a completion flag: `true`
means the loop finished and the charts are written, `false` means an
exception propagated out of `compute_launch_windows` before any chart was
saved. -/
def windowsLoopE (dist : Date → Option ℚ) :
    List Int → List ApproachRecord → List ApproachRecord × Bool
  | [], acc => (acc, true)
  | y :: ys, acc =>
    match scanYearE dist y with
    | some (some (o, v)) => windowsLoopE dist ys (acc ++ [⟨y, jan1Plus y o, v⟩])
    | _ => (acc, false)

/-- Batch run of `compute_launch_windows` with a fallible ephemeris. -/
def compute_launch_windowsE (dist : Date → Option ℚ) (s e : Int) :
    List ApproachRecord × Bool :=
  windowsLoopE dist (yearsRange s e) []

/-- Transfer-time computation of `compute_launch_windows` (lines 113–114):
`a_trans = (r_e + r_m) / 2` and `T_days = math.pi * math.sqrt(a_trans**3 / GM_SUN)`. -/
noncomputable def transferDays (r_e r_m : ℝ) : ℝ :=
  let a_trans := (r_e + r_m) / 2
  Real.pi * Real.sqrt (a_trans ^ 3 / GM_SUN)

/-- Python's `int()` truncation toward zero on an exact value. -/
def pyInt (q : ℚ) : ℤ :=
  if 0 ≤ q then ⌊q⌋ else ⌈q⌉

/-- Python's `%` operator for a positive divisor: `a - b * (a // b)` with
`//` the floor division. -/
def pyMod (a b : ℚ) : ℚ :=
  a - b * ⌊a / b⌋

/-- Point label of the travel-times chart (lines 124–126):
`f"{int(td // 30)}m{int(td % 30)}d"`. -/
def pointLabel (td : ℚ) : String :=
  let months : ℤ := pyInt ⌊td / 30⌋
  let days : ℤ := pyInt (pyMod td 30)
  toString months ++ "m" ++ toString days ++ "d"

/-- Numpy `arctan2(y, x)`: the angle of the point `(x, y)` in `(-π, π]`,
which is the argument of the complex number `x + y·i`. -/
noncomputable def atan2 (y x : ℝ) : ℝ :=
  Complex.arg ⟨x, y⟩

/-- Transform `radial_exaggerate` (lines 47–53): log-compressed radius,
angle preserved, with the origin mapped to itself exactly. -/
noncomputable def radial_exaggerate (x y max_radius : ℝ) : ℝ × ℝ :=
  let r := Real.sqrt (x ^ 2 + y ^ 2)
  if r = 0 then (0, 0)
  else
    let r_new := Real.log (1 + r) / Real.log (1 + max_radius) * max_radius
    let theta := atan2 y x
    (r_new * Real.cos theta, r_new * Real.sin theta)

/-- Function `earth_mars_distance` (lines 67–70): the planar Euclidean
distance between the raw ephemeris positions of Earth and Mars, with the
ephemeris provider `getXY` as an explicit parameter. -/
noncomputable def earth_mars_distance (getXY : String → Date → ℝ × ℝ)
    (t : Date) : ℝ :=
  let pe := getXY "earth" t
  let pm := getXY "mars" t
  Real.sqrt ((pm.1 - pe.1) ^ 2 + (pm.2 - pe.2) ^ 2)

/-- Transfer-time block of `compute_launch_windows` (lines 109–114) for a
single date: heliocentric radii are the hypot of the raw ephemeris
positions, then the Hohmann half-period formula is applied. -/
noncomputable def transferForDate (getXY : String → Date → ℝ × ℝ)
    (t : Date) : ℝ :=
  let r_e := Real.sqrt ((getXY "earth" t).1 ^ 2 + (getXY "earth" t).2 ^ 2)
  let r_m := Real.sqrt ((getXY "mars" t).1 ^ 2 + (getXY "mars" t).2 ^ 2)
  let a_trans := (r_e + r_m) / 2
  Real.pi * Real.sqrt (a_trans ^ 3 / GM_SUN)

/-! Calendar lemmas. -/

lemma le_daysInYear (y : Int) : 365 ≤ daysInYear y := by
  unfold daysInYear
  split <;> omega

lemma daysInYear_le (y : Int) : daysInYear y ≤ 366 := by
  unfold daysInYear
  split <;> omega

lemma daysInYear_of_not_leap {y : Int} (h : isLeap y = false) :
    daysInYear y = 365 := by
  unfold daysInYear
  rw [h]
  rfl

lemma jan1Plus_of_lt (y : Int) {o : Nat} (h : o < daysInYear y) :
    jan1Plus y o = ⟨y, o⟩ := by
  induction o with
  | zero => rfl
  | succ n ih =>
    rw [jan1Plus, ih (Nat.lt_of_succ_lt h), succDay]
    exact if_pos h

lemma jan1Plus_last {y : Int} (h : isLeap y = false) :
    jan1Plus y 365 = ⟨y + 1, 0⟩ := by
  have hd : daysInYear y = 365 := daysInYear_of_not_leap h
  have h364 : (364 : Nat) < daysInYear y := by omega
  rw [jan1Plus, jan1Plus_of_lt y h364, succDay]
  simp [hd]

/-! Correctness of the inner scan loop. -/

/-- View of the inner scan loop over an arbitrary number of day offsets,
with the sampled values abstracted into `g`. -/
def scanFold (g : Nat → ℚ) (n : Nat) : Option (Nat × ℚ) :=
  (List.range n).foldl (fun best offset => bestUpd best offset (g offset)) none

lemma scanFold_succ (g : Nat → ℚ) (n : Nat) :
    scanFold g (n + 1) = bestUpd (scanFold g n) n (g n) := by
  unfold scanFold
  rw [List.range_succ, List.foldl_append]
  rfl

lemma scanFold_spec (g : Nat → ℚ) :
    ∀ n : Nat, 0 < n →
      ∃ o v, scanFold g n = some (o, v) ∧ o < n ∧ v = g o ∧
        (∀ m, m < n → v ≤ g m) ∧ ∀ m, m < o → v < g m := by
  intro n
  induction n with
  | zero => intro h; exact absurd h (lt_irrefl 0)
  | succ n ih =>
    intro _
    rcases Nat.eq_zero_or_pos n with rfl | hn
    · refine ⟨0, g 0, rfl, Nat.one_pos, rfl, ?_, ?_⟩
      · intro m hm
        interval_cases m
        exact le_refl _
      · intro m hm
        exact absurd hm (Nat.not_lt_zero m)
    · obtain ⟨o, v, hF, ho, hv, hmin, hstr⟩ := ih hn
      rw [scanFold_succ, hF]
      by_cases hlt : g n < v
      · refine ⟨n, g n, by simp [bestUpd, hlt], Nat.lt_succ_self n, rfl, ?_, ?_⟩
        · intro m hm
          rcases Nat.lt_succ_iff_lt_or_eq.mp hm with h | rfl
          · exact le_of_lt (lt_of_lt_of_le hlt (hmin m h))
          · exact le_refl _
        · intro m hm
          exact lt_of_lt_of_le hlt (hmin m hm)
      · refine ⟨o, v, by simp [bestUpd, hlt], ho.trans (Nat.lt_succ_self n),
          hv, ?_, hstr⟩
        intro m hm
        rcases Nat.lt_succ_iff_lt_or_eq.mp hm with h | rfl
        · exact hmin m h
        · exact le_of_not_lt hlt

lemma scanYear_eq_scanFold (dist : Date → ℚ) (y : Int) :
    scanYear dist y = scanFold (fun o => dist (jan1Plus y o)) 366 := rfl

lemma scanYear_spec (dist : Date → ℚ) (y : Int) :
    ∃ o v, scanYear dist y = some (o, v) ∧ o < 366 ∧
      v = dist (jan1Plus y o) ∧
      (∀ m, m < 366 → v ≤ dist (jan1Plus y m)) ∧
      ∀ m, m < o → v < dist (jan1Plus y m) := by
  rw [scanYear_eq_scanFold]
  exact scanFold_spec (fun o => dist (jan1Plus y o)) 366 (by norm_num)

lemma recordFor_spec (dist : Date → ℚ) (y : Int) :
    ∃ o, o < 366 ∧
      recordFor dist y = ⟨y, jan1Plus y o, dist (jan1Plus y o)⟩ ∧
      (∀ m, m < 366 → dist (jan1Plus y o) ≤ dist (jan1Plus y m)) ∧
      ∀ m, m < o → dist (jan1Plus y o) < dist (jan1Plus y m) := by
  obtain ⟨o, v, hs, ho, hv, hmin, hstr⟩ := scanYear_spec dist y
  subst hv
  refine ⟨o, ho, ?_, hmin, hstr⟩
  unfold recordFor
  rw [hs]

lemma recordFor_year (dist : Date → ℚ) (y : Int) :
    (recordFor dist y).year = y := by
  obtain ⟨o, _, he, _, _⟩ := recordFor_spec dist y
  rw [he]

/-! Claims C1 and C2: the per-year scan. -/

/-- Distance function that keeps decreasing through the whole sampled
window of the year 2025, so that the minimum falls on the last sample. -/
def distC1 : Date → ℚ :=
  fun d => if 2026 ≤ d.year then 0 else 1

set_option maxRecDepth 40000 in
/-- C1 counterexample: 2025 is not a leap year, so sampling day offsets
0..365 from January 1 includes January 1 of 2026; with a distance
function minimal there, the returned record's date lies outside its
year, refuting the invariant "date within [Jan 1, Dec 31] of year". -/
theorem claim_C1_counterexample :
    ∃ r ∈ compute_launch_windows distC1 2025 2025,
      r.date.year ≠ r.year := by
  refine ⟨⟨2025, ⟨2026, 0⟩, 0⟩, by decide, by decide⟩

/-- C1 (amended): for every year range with `start_year ≤ end_year` and a
nonnegative distance function, `compute_launch_windows` produces exactly
one record per year in the range, each with nonnegative distance, and
each record's date lies in its year except that in a non-leap year the
date may be January 1 of the following year (the 366th sample). -/
theorem claim_C1_amended (dist : Date → ℚ) (s e : Int) (hse : s ≤ e)
    (hd : ∀ d, 0 ≤ dist d) :
    (compute_launch_windows dist s e).map (fun r => r.year) =
      yearsRange s e ∧
    ∀ r ∈ compute_launch_windows dist s e,
      0 ≤ r.distance ∧
      (r.date.year = r.year ∨
        (isLeap r.year = false ∧ r.date = ⟨r.year + 1, 0⟩)) := by
  constructor
  · unfold compute_launch_windows
    rw [List.map_map]
    have h := List.map_congr_left
      (l := yearsRange s e)
      (f := (fun r : ApproachRecord => r.year) ∘ recordFor dist)
      (g := id) (fun y _ => recordFor_year dist y)
    rw [h, List.map_id]
  · intro r hr
    rw [compute_launch_windows, List.mem_map] at hr
    obtain ⟨y, hy, hry⟩ := hr
    obtain ⟨o, ho, he, hmin, hstr⟩ := recordFor_spec dist y
    rw [he] at hry
    subst hry
    refine ⟨hd _, ?_⟩
    by_cases hlt : o < daysInYear y
    · left
      rw [jan1Plus_of_lt y hlt]
    · right
      have h365 : daysInYear y ≤ o := le_of_not_lt hlt
      have hleap : isLeap y = false := by
        by_contra h
        simp only [Bool.not_eq_false] at h
        have h366 : daysInYear y = 366 := by unfold daysInYear; rw [h]; rfl
        omega
      have ho365 : o = 365 := by
        have := daysInYear_of_not_leap hleap
        omega
      subst ho365
      exact ⟨hleap, by rw [jan1Plus_last hleap]⟩

/-- Witness for the amended C1 at the constant distance function `0` on
the one-year range 2000–2000. -/
theorem claim_C1_amended_witness :
    (2000 : Int) ≤ 2000 ∧ (∀ d : Date, (0 : ℚ) ≤ 0) ∧
    ((compute_launch_windows (fun _ => 0) 2000 2000).map (fun r => r.year) =
        yearsRange 2000 2000 ∧
      ∀ r ∈ compute_launch_windows (fun _ => 0) 2000 2000,
        0 ≤ r.distance ∧
        (r.date.year = r.year ∨
          (isLeap r.year = false ∧ r.date = ⟨r.year + 1, 0⟩))) :=
  ⟨le_refl 2000, fun _ => le_refl 0,
    claim_C1_amended (fun _ => 0) 2000 2000 (le_refl 2000)
      (fun _ => le_refl 0)⟩

/-- C2: every record the Scanner returns carries the minimum sampled
distance of its year over day offsets 0..365 from January 1, and its date
is the earliest sample attaining that minimum — every strictly earlier
sample has a strictly larger distance, because the stored best is only
replaced on a strict `<` comparison. -/
theorem claim_C2_scanner_minimum (dist : Date → ℚ) (s e : Int)
    (r : ApproachRecord) (hr : r ∈ compute_launch_windows dist s e) :
    ∃ o, o < 366 ∧ r.date = jan1Plus r.year o ∧
      r.distance = dist (jan1Plus r.year o) ∧
      (∀ m, m < 366 → r.distance ≤ dist (jan1Plus r.year m)) ∧
      ∀ m, m < o → r.distance < dist (jan1Plus r.year m) := by
  rw [compute_launch_windows, List.mem_map] at hr
  obtain ⟨y, hy, hry⟩ := hr
  obtain ⟨o, ho, he, hmin, hstr⟩ := recordFor_spec dist y
  rw [he] at hry
  subst hry
  exact ⟨o, ho, rfl, rfl, hmin, hstr⟩

set_option maxRecDepth 40000 in
/-- Witness for C2 at the constant distance function `0` on the one-year
range 2000–2000: the returned record is January 1 with distance 0. -/
theorem claim_C2_scanner_minimum_witness :
    (⟨2000, ⟨2000, 0⟩, 0⟩ : ApproachRecord) ∈
      compute_launch_windows (fun _ => 0) 2000 2000 ∧
    ∃ o, o < 366 ∧
      (⟨2000, ⟨2000, 0⟩, 0⟩ : ApproachRecord).date =
        jan1Plus (⟨2000, ⟨2000, 0⟩, (0 : ℚ)⟩ : ApproachRecord).year o ∧
      (⟨2000, ⟨2000, 0⟩, 0⟩ : ApproachRecord).distance =
        (fun _ : Date => (0 : ℚ))
          (jan1Plus (⟨2000, ⟨2000, 0⟩, (0 : ℚ)⟩ : ApproachRecord).year o) ∧
      (∀ m, m < 366 →
        (⟨2000, ⟨2000, 0⟩, (0 : ℚ)⟩ : ApproachRecord).distance ≤
          (fun _ : Date => (0 : ℚ))
            (jan1Plus (⟨2000, ⟨2000, 0⟩, (0 : ℚ)⟩ : ApproachRecord).year m)) ∧
      ∀ m, m < o →
        (⟨2000, ⟨2000, 0⟩, (0 : ℚ)⟩ : ApproachRecord).distance <
          (fun _ : Date => (0 : ℚ))
            (jan1Plus (⟨2000, ⟨2000, 0⟩, (0 : ℚ)⟩ : ApproachRecord).year m) :=
  ⟨by decide,
    claim_C2_scanner_minimum (fun _ => 0) 2000 2000 _ (by decide)⟩

/-! Claim C5: a resolution failure aborts the batch run. -/

lemma mem_yearsRange {s e y : Int} (hs : s ≤ y) (he : y ≤ e) :
    y ∈ yearsRange s e := by
  unfold yearsRange
  simp only [List.mem_map, List.mem_range]
  exact ⟨(y - s).toNat, by omega, by omega⟩

lemma yearsRange_pairwise (s e : Int) :
    (yearsRange s e).Pairwise (· < ·) := by
  unfold yearsRange
  rw [List.pairwise_map]
  exact (List.pairwise_lt_range _).imp
    (fun h => Int.add_lt_add_left (Int.ofNat_lt.mpr h) s)

lemma foldlM_option_none {α β : Type} (f : β → α → Option β) (x : α)
    (hf : ∀ b, f b x = none) :
    ∀ (l : List α) (init : β), x ∈ l → l.foldlM f init = none := by
  intro l
  induction l with
  | nil => intro init h; exact absurd h (List.not_mem_nil x)
  | cons a t ih =>
    intro init hmem
    rw [List.foldlM_cons]
    rcases List.mem_cons.mp hmem with rfl | hx
    · rw [hf init]
      rfl
    · cases hfa : f init a with
      | none => rfl
      | some b => simpa using ih b hx

lemma scanYearE_none (dist : Date → Option ℚ) (y : Int) (o : Nat)
    (ho : o < 366) (hfail : dist (jan1Plus y o) = none) :
    scanYearE dist y = none := by
  unfold scanYearE
  exact foldlM_option_none _ o (fun b => by rw [hfail]) _ _
    (List.mem_range.mpr ho)

lemma windowsLoopE_cons_ok (dist : Date → Option ℚ) {y : Int} {o : Nat}
    {v : ℚ} (ys : List Int) (acc : List ApproachRecord)
    (h : scanYearE dist y = some (some (o, v))) :
    windowsLoopE dist (y :: ys) acc =
      windowsLoopE dist ys (acc ++ [⟨y, jan1Plus y o, v⟩]) := by
  rw [windowsLoopE, h]

lemma windowsLoopE_cons_fail (dist : Date → Option ℚ) {y : Int}
    (ys : List Int) (acc : List ApproachRecord)
    (h : scanYearE dist y = none) :
    windowsLoopE dist (y :: ys) acc = (acc, false) := by
  rw [windowsLoopE, h]

lemma windowsLoopE_cons_fail' (dist : Date → Option ℚ) {y : Int}
    (ys : List Int) (acc : List ApproachRecord)
    (h : scanYearE dist y = some none) :
    windowsLoopE dist (y :: ys) acc = (acc, false) := by
  rw [windowsLoopE, h]

lemma windowsLoopE_fail (dist : Date → Option ℚ) (y : Int)
    (hy : scanYearE dist y = none) :
    ∀ (l : List Int) (acc : List ApproachRecord),
      y ∈ l → l.Pairwise (· < ·) → (∀ r ∈ acc, r.year < y) →
      (windowsLoopE dist l acc).2 = false ∧
        ∀ r ∈ (windowsLoopE dist l acc).1, r.year < y := by
  intro l
  induction l with
  | nil => intro acc h; exact absurd h (List.not_mem_nil y)
  | cons z zs ih =>
    intro acc hmem hpw hacc
    rcases List.mem_cons.mp hmem with rfl | hmem'
    · rw [windowsLoopE_cons_fail dist zs acc hy]
      exact ⟨rfl, hacc⟩
    · have hz : z < y := (List.pairwise_cons.mp hpw).1 y hmem'
      cases hscan : scanYearE dist z with
      | none =>
        rw [windowsLoopE_cons_fail dist zs acc hscan]
        exact ⟨rfl, hacc⟩
      | some ob =>
        cases ob with
        | none =>
          rw [windowsLoopE_cons_fail' dist zs acc hscan]
          exact ⟨rfl, hacc⟩
        | some p =>
          obtain ⟨o, v⟩ := p
          rw [windowsLoopE_cons_ok dist zs acc hscan]
          refine ih _ hmem' (List.pairwise_cons.mp hpw).2 ?_
          intro r hr
          rcases List.mem_append.mp hr with h | h
          · exact hacc r h
          · rw [List.mem_singleton] at h
            subst h
            exact hz

/-- C5: if the ephemeris cannot resolve one of the sampled epochs of a
year inside the requested range, the batch run aborts: the completion
flag is `false` (no chart is produced) and no record is emitted for the
failing year or any later year.  The failing sample is not skipped: it
poisons the whole scan of its year. -/
theorem claim_C5_data_unavailable (dist : Date → Option ℚ) (s e y : Int)
    (o : Nat) (hs : s ≤ y) (he : y ≤ e) (ho : o < 366)
    (hfail : dist (jan1Plus y o) = none) :
    (compute_launch_windowsE dist s e).2 = false ∧
      ∀ r ∈ (compute_launch_windowsE dist s e).1, r.year < y := by
  unfold compute_launch_windowsE
  exact windowsLoopE_fail dist y (scanYearE_none dist y o ho hfail)
    (yearsRange s e) [] (mem_yearsRange hs he) (yearsRange_pairwise s e)
    (fun r hr => absurd hr (List.not_mem_nil r))

/-- Ephemeris stub that fails exactly on January 1 of 2001. -/
def distC5 : Date → Option ℚ :=
  fun d => if d.year = 2001 ∧ d.dayOfYear = 0 then none else some 1

/-- Witness for C5: scanning 2000–2002 against an ephemeris that cannot
resolve January 1 of 2001 aborts with no record for 2001 or 2002. -/
theorem claim_C5_data_unavailable_witness :
    ((2000 : Int) ≤ 2001 ∧ (2001 : Int) ≤ 2002 ∧ (0 : Nat) < 366 ∧
      distC5 (jan1Plus 2001 0) = none) ∧
    ((compute_launch_windowsE distC5 2000 2002).2 = false ∧
      ∀ r ∈ (compute_launch_windowsE distC5 2000 2002).1, r.year < 2001) :=
  ⟨⟨by norm_num, by norm_num, by norm_num, by decide⟩,
    claim_C5_data_unavailable distC5 2000 2002 2001 0 (by norm_num)
      (by norm_num) (by norm_num) (by decide)⟩

/-! Claim C4: input validation. -/

lemma yearsRange_nil {s e : Int} (h : e < s) : yearsRange s e = [] := by
  unfold yearsRange
  have h0 : (e + 1 - s).toNat = 0 := by omega
  rw [h0]
  rfl

/-- C4 counterexample: nothing in the code validates inputs.  Called with
the empty year range 2025..2024 the Scanner returns normally with an
empty record list (it does not fail with `InvalidInput`), and called with
the zero radii the Transfer-Time Estimator returns the ordinary value 0
(it does not fail with `InvalidInput`). -/
theorem claim_C4_counterexample :
    compute_launch_windows (fun _ => 1) 2025 2024 = [] ∧
    transferDays 0 0 = 0 := by
  constructor
  · rfl
  · norm_num [transferDays]

/-- C4 (amended): the code performs no input validation.  An empty year
range (`end_year < start_year`) makes the Scanner return an empty record
list and the batch completes normally, and the Transfer-Time Estimator
accepts non-positive radii, zero radii yielding duration 0; no
`InvalidInput` error exists anywhere. -/
theorem claim_C4_no_validation (dist : Date → ℚ) (distE : Date → Option ℚ)
    (s e : Int) (h : e < s) :
    compute_launch_windows dist s e = [] ∧
    (compute_launch_windowsE distE s e).2 = true ∧
    transferDays 0 0 = 0 := by
  have hyr : yearsRange s e = [] := yearsRange_nil h
  refine ⟨?_, ?_, ?_⟩
  · unfold compute_launch_windows
    rw [hyr]
    rfl
  · unfold compute_launch_windowsE
    rw [hyr]
    rfl
  · norm_num [transferDays]

/-- Witness for the amended C4 on the empty range 2025..2024. -/
theorem claim_C4_no_validation_witness :
    (2024 : Int) < 2025 ∧
    (compute_launch_windows (fun _ => 1) 2025 2024 = [] ∧
      (compute_launch_windowsE (fun _ => none) 2025 2024).2 = true ∧
      transferDays 0 0 = 0) :=
  ⟨by norm_num,
    claim_C4_no_validation (fun _ => 1) (fun _ => none) 2025 2024
      (by norm_num)⟩

/-! Claim C8: the travel-time point labels. -/

lemma pyInt_intCast (n : ℤ) : pyInt (n : ℚ) = n := by
  unfold pyInt
  split
  · exact Int.floor_intCast n
  · exact Int.ceil_intCast n

lemma pyMod_30_nonneg (td : ℚ) : 0 ≤ pyMod td 30 := by
  unfold pyMod
  have h := Int.floor_le (td / 30)
  have h30 : (30 : ℚ) * ⌊td / 30⌋ ≤ 30 * (td / 30) :=
    mul_le_mul_of_nonneg_left h (by norm_num)
  have hdiv : (30 : ℚ) * (td / 30) = td := by ring
  linarith

lemma pointLabel_eq (td : ℚ) :
    pointLabel td = toString ⌊td / 30⌋ ++ "m" ++
      toString ⌊td - 30 * (⌊td / 30⌋ : ℚ)⌋ ++ "d" := by
  have hmod := pyMod_30_nonneg td
  unfold pointLabel
  rw [pyInt_intCast]
  unfold pyInt
  rw [if_pos hmod]
  rfl

/-- C8: every travel-time point label is the string
`{months}m{days}d` where `months = ⌊duration / 30⌋` and `days` is
`duration mod 30` truncated to an integer (the remainder is nonnegative,
so truncation is the floor `⌊duration⌋ - 30·⌊duration / 30⌋` of the
remainder); in particular a 75-day duration is labelled `2m15d`. -/
theorem claim_C8_point_label_format :
    (∀ td : ℚ, pointLabel td = toString ⌊td / 30⌋ ++ "m" ++
      toString ⌊td - 30 * (⌊td / 30⌋ : ℚ)⌋ ++ "d") ∧
    pointLabel 75 = "2m15d" := by
  refine ⟨pointLabel_eq, ?_⟩
  rw [pointLabel_eq]
  norm_num
  rfl

/-! Claim C3: the Hohmann transfer-time formula. -/

lemma transferDays_val :
    transferDays 1 1.524 =
      Real.pi * Real.sqrt ((20099167280000000000 : ℝ) / 2959122082855911) := by
  unfold transferDays GM_SUN
  norm_num

lemma sqrt_q_lower :
    (82.41 : ℝ) ≤
      Real.sqrt ((20099167280000000000 : ℝ) / 2959122082855911) :=
  (Real.le_sqrt (by norm_num) (by norm_num)).mpr (by norm_num)

lemma sqrt_q_upper :
    Real.sqrt ((20099167280000000000 : ℝ) / 2959122082855911) ≤ 82.42 := by
  have h : ((20099167280000000000 : ℝ) / 2959122082855911) ≤ (82.42 : ℝ) ^ 2 := by
    norm_num
  calc Real.sqrt ((20099167280000000000 : ℝ) / 2959122082855911)
      ≤ Real.sqrt ((82.42 : ℝ) ^ 2) := Real.sqrt_le_sqrt h
    _ = 82.42 := Real.sqrt_sq (by norm_num)

/-- C3: for positive radii the Transfer-Time Estimator returns exactly
`π · √(a³/μ)` days with `a = (r_earth + r_mars) / 2` and
`μ = 0.0002959122082855911`, and at `r_earth = 1.0`, `r_mars = 1.524` the
duration is 259 days to within one day (its value is ≈ 258.9). -/
theorem claim_C3_transfer_time (r_e r_m : ℝ) (h1 : 0 < r_e)
    (h2 : 0 < r_m) :
    transferDays r_e r_m =
      Real.pi * Real.sqrt (((r_e + r_m) / 2) ^ 3 / GM_SUN) ∧
    |transferDays 1 1.524 - 259| ≤ 1 := by
  constructor
  · rfl
  · rw [transferDays_val]
    have hs0 : (0 : ℝ) ≤
        Real.sqrt ((20099167280000000000 : ℝ) / 2959122082855911) :=
      Real.sqrt_nonneg _
    have hub : Real.pi *
        Real.sqrt ((20099167280000000000 : ℝ) / 2959122082855911) ≤
          3.141593 * 82.42 :=
      mul_le_mul Real.pi_lt_d6.le sqrt_q_upper hs0 (by norm_num)
    have hlb : (3.141592 : ℝ) * 82.41 ≤ Real.pi *
        Real.sqrt ((20099167280000000000 : ℝ) / 2959122082855911) :=
      mul_le_mul Real.pi_gt_d6.le sqrt_q_lower (by norm_num) Real.pi_pos.le
    rw [abs_le]
    constructor <;> nlinarith [hub, hlb]

/-- Witness for C3 at the radii 1.0 AU and 1.524 AU from the spec's
regression test. -/
theorem claim_C3_transfer_time_witness :
    (0 : ℝ) < 1 ∧ (0 : ℝ) < 1.524 ∧
    (transferDays 1 1.524 =
      Real.pi * Real.sqrt ((((1 : ℝ) + 1.524) / 2) ^ 3 / GM_SUN) ∧
     |transferDays 1 1.524 - 259| ≤ 1) :=
  ⟨by norm_num, by norm_num,
    claim_C3_transfer_time 1 1.524 (by norm_num) (by norm_num)⟩

/-! Claims C6, C7, C10: the radial exaggeration transform. -/

lemma radial_exaggerate_origin (m : ℝ) :
    radial_exaggerate 0 0 m = (0, 0) := by
  unfold radial_exaggerate
  norm_num

lemma radial_exaggerate_of_pos (x y m : ℝ)
    (hr : Real.sqrt (x ^ 2 + y ^ 2) ≠ 0) :
    radial_exaggerate x y m =
      (Real.log (1 + Real.sqrt (x ^ 2 + y ^ 2)) / Real.log (1 + m) * m *
        Real.cos (atan2 y x),
       Real.log (1 + Real.sqrt (x ^ 2 + y ^ 2)) / Real.log (1 + m) * m *
        Real.sin (atan2 y x)) := by
  unfold radial_exaggerate
  rw [if_neg hr]

lemma atan2_mem_Ioc (y x : ℝ) :
    atan2 y x ∈ Set.Ioc (-Real.pi) Real.pi :=
  Complex.arg_mem_Ioc _

lemma atan2_scale {c : ℝ} (hc : 0 < c) {θ : ℝ}
    (hθ : θ ∈ Set.Ioc (-Real.pi) Real.pi) :
    atan2 (c * Real.sin θ) (c * Real.cos θ) = θ := by
  unfold atan2
  have hz : (⟨c * Real.cos θ, c * Real.sin θ⟩ : ℂ) =
      (c : ℂ) * ((Real.cos θ : ℂ) + (Real.sin θ : ℂ) * Complex.I) := by
    apply Complex.ext <;>
      simp [Complex.cos_ofReal_re, Complex.sin_ofReal_re]
  rw [hz, Complex.arg_real_mul _ hc]
  rw [show ((Real.cos θ : ℂ) + (Real.sin θ : ℂ) * Complex.I) =
      Complex.cos θ + Complex.sin θ * Complex.I by
    rw [Complex.ofReal_cos, Complex.ofReal_sin]]
  exact Complex.arg_cos_add_sin_mul_I hθ

lemma radial_exaggerate_radius (x y m : ℝ)
    (hr : 0 < Real.sqrt (x ^ 2 + y ^ 2))
    (hrn : 0 ≤ Real.log (1 + Real.sqrt (x ^ 2 + y ^ 2)) /
      Real.log (1 + m) * m) :
    Real.sqrt ((radial_exaggerate x y m).1 ^ 2 +
        (radial_exaggerate x y m).2 ^ 2) =
      Real.log (1 + Real.sqrt (x ^ 2 + y ^ 2)) / Real.log (1 + m) * m := by
  rw [radial_exaggerate_of_pos x y m (ne_of_gt hr)]
  dsimp only
  rw [show ∀ t c s : ℝ, (t * c) ^ 2 + (t * s) ^ 2 = t ^ 2 * (c ^ 2 + s ^ 2)
    from fun t c s => by ring]
  rw [Real.cos_sq_add_sin_sq, mul_one]
  exact Real.sqrt_sq hrn

/-- C6: `radial_exaggerate` maps the origin to exactly `(0, 0)` for any
plot limit, through the explicit `r == 0` branch, with no division by
zero or undefined angle. -/
theorem claim_C6_origin_exact (m : ℝ) :
    radial_exaggerate 0 0 m = (0, 0) :=
  radial_exaggerate_origin m

/-- C7: for an input with radius `0 < r ≤ max_radius`, the transform
preserves the polar angle exactly (in the real-number model), the output
radius is `ln(1+r)/ln(1+max_radius)·max_radius`, and that radius is at
most `max_radius`. -/
theorem claim_C7_angle_and_bound (x y m : ℝ)
    (hr : 0 < Real.sqrt (x ^ 2 + y ^ 2))
    (hrm : Real.sqrt (x ^ 2 + y ^ 2) ≤ m) :
    atan2 (radial_exaggerate x y m).2 (radial_exaggerate x y m).1 =
      atan2 y x ∧
    Real.sqrt ((radial_exaggerate x y m).1 ^ 2 +
        (radial_exaggerate x y m).2 ^ 2) =
      Real.log (1 + Real.sqrt (x ^ 2 + y ^ 2)) / Real.log (1 + m) * m ∧
    Real.sqrt ((radial_exaggerate x y m).1 ^ 2 +
        (radial_exaggerate x y m).2 ^ 2) ≤ m := by
  have hm : 0 < m := lt_of_lt_of_le hr hrm
  have hlr : 0 < Real.log (1 + Real.sqrt (x ^ 2 + y ^ 2)) :=
    Real.log_pos (by linarith)
  have hlm : 0 < Real.log (1 + m) := Real.log_pos (by linarith)
  have hrn : 0 < Real.log (1 + Real.sqrt (x ^ 2 + y ^ 2)) /
      Real.log (1 + m) * m :=
    mul_pos (div_pos hlr hlm) hm
  have hrad := radial_exaggerate_radius x y m hr hrn.le
  refine ⟨?_, hrad, ?_⟩
  · rw [radial_exaggerate_of_pos x y m (ne_of_gt hr)]
    exact atan2_scale hrn (atan2_mem_Ioc y x)
  · rw [hrad]
    have hdiv : Real.log (1 + Real.sqrt (x ^ 2 + y ^ 2)) /
        Real.log (1 + m) ≤ 1 :=
      (div_le_one hlm).mpr (Real.log_le_log (by linarith) (by linarith))
    calc Real.log (1 + Real.sqrt (x ^ 2 + y ^ 2)) / Real.log (1 + m) * m
        ≤ 1 * m := mul_le_mul_of_nonneg_right hdiv hm.le
      _ = m := one_mul m

/-- Witness for C7 at the point `(1, 0)` with plot limit 40. -/
theorem claim_C7_angle_and_bound_witness :
    (0 : ℝ) < Real.sqrt (1 ^ 2 + 0 ^ 2) ∧
    Real.sqrt ((1 : ℝ) ^ 2 + 0 ^ 2) ≤ 40 ∧
    (atan2 (radial_exaggerate 1 0 40).2 (radial_exaggerate 1 0 40).1 =
      atan2 0 1 ∧
    Real.sqrt ((radial_exaggerate 1 0 40).1 ^ 2 +
        (radial_exaggerate 1 0 40).2 ^ 2) =
      Real.log (1 + Real.sqrt ((1 : ℝ) ^ 2 + 0 ^ 2)) / Real.log (1 + 40) * 40 ∧
    Real.sqrt ((radial_exaggerate 1 0 40).1 ^ 2 +
        (radial_exaggerate 1 0 40).2 ^ 2) ≤ 40) := by
  have hs : Real.sqrt ((1 : ℝ) ^ 2 + 0 ^ 2) = 1 := by
    rw [show (1 : ℝ) ^ 2 + 0 ^ 2 = 1 ^ 2 by norm_num,
      Real.sqrt_sq (by norm_num : (0 : ℝ) ≤ 1)]
  have h1 : (0 : ℝ) < Real.sqrt ((1 : ℝ) ^ 2 + 0 ^ 2) := by
    rw [hs]
    norm_num
  have h2 : Real.sqrt ((1 : ℝ) ^ 2 + 0 ^ 2) ≤ 40 := by
    rw [hs]
    norm_num
  exact ⟨h1, h2, claim_C7_angle_and_bound 1 0 40 h1 h2⟩

lemma log_ratio_lt {a b : ℝ} (ha : 0 < a) (hab : a < b) :
    a * Real.log (1 + b) < b * Real.log (1 + a) := by
  have h1a : (0 : ℝ) < 1 + a := by linarith
  have h1b : (0 : ℝ) < 1 + b := by linarith
  have ht : Real.log (1 + b) - Real.log (1 + a) ≤ (b - a) / (1 + a) := by
    have h := Real.log_le_sub_one_of_pos (div_pos h1b h1a)
    rw [Real.log_div (ne_of_gt h1b) (ne_of_gt h1a)] at h
    have he : (1 + b) / (1 + a) - 1 = (b - a) / (1 + a) := by
      field_simp
    linarith
  have hs : a / (1 + a) < Real.log (1 + a) := by
    have hx : -(a / (1 + a)) ≠ 0 :=
      neg_ne_zero.mpr (ne_of_gt (div_pos ha h1a))
    have h := Real.add_one_lt_exp hx
    have he : -(a / (1 + a)) + 1 = 1 / (1 + a) := by
      field_simp
    have h1 : (1 : ℝ) / (1 + a) < Real.exp (-(a / (1 + a))) := by linarith
    have h2 := Real.log_lt_log (by positivity) h1
    rw [Real.log_exp, one_div, Real.log_inv] at h2
    linarith
  have hba : (0 : ℝ) < b - a := by linarith
  have c1 : a * (Real.log (1 + b) - Real.log (1 + a)) ≤
      a * ((b - a) / (1 + a)) :=
    mul_le_mul_of_nonneg_left ht ha.le
  have c2 : a * ((b - a) / (1 + a)) < (b - a) * Real.log (1 + a) := by
    rw [show a * ((b - a) / (1 + a)) = (b - a) * (a / (1 + a)) by ring]
    exact (mul_lt_mul_left hba).mpr hs
  nlinarith [c1, c2]

/-- C10: a point whose radius exceeds the plot limit `max_radius` is
mapped to a point whose radius still exceeds `max_radius` (the transform
does not clamp) while being strictly smaller than the input radius. -/
theorem claim_C10_beyond_limit (x y m : ℝ) (hm : 0 < m)
    (hr : m < Real.sqrt (x ^ 2 + y ^ 2)) :
    m < Real.sqrt ((radial_exaggerate x y m).1 ^ 2 +
        (radial_exaggerate x y m).2 ^ 2) ∧
    Real.sqrt ((radial_exaggerate x y m).1 ^ 2 +
        (radial_exaggerate x y m).2 ^ 2) <
      Real.sqrt (x ^ 2 + y ^ 2) := by
  have hr0 : 0 < Real.sqrt (x ^ 2 + y ^ 2) := hm.trans hr
  have hlr : 0 < Real.log (1 + Real.sqrt (x ^ 2 + y ^ 2)) :=
    Real.log_pos (by linarith)
  have hlm : 0 < Real.log (1 + m) := Real.log_pos (by linarith)
  have hrn : 0 < Real.log (1 + Real.sqrt (x ^ 2 + y ^ 2)) /
      Real.log (1 + m) * m :=
    mul_pos (div_pos hlr hlm) hm
  rw [radial_exaggerate_radius x y m hr0 hrn.le]
  constructor
  · have h1 : 1 < Real.log (1 + Real.sqrt (x ^ 2 + y ^ 2)) /
        Real.log (1 + m) :=
      (one_lt_div hlm).mpr (Real.log_lt_log (by linarith) (by linarith))
    calc m = 1 * m := (one_mul m).symm
      _ < Real.log (1 + Real.sqrt (x ^ 2 + y ^ 2)) /
            Real.log (1 + m) * m := mul_lt_mul_of_pos_right h1 hm
  · have hkey : m * Real.log (1 + Real.sqrt (x ^ 2 + y ^ 2)) <
        Real.sqrt (x ^ 2 + y ^ 2) * Real.log (1 + m) :=
      log_ratio_lt hm hr
    rw [div_mul_eq_mul_div, div_lt_iff₀ hlm,
      mul_comm (Real.log (1 + Real.sqrt (x ^ 2 + y ^ 2))) m]
    exact hkey

/-- Witness for C10 at the point `(3, 4)` (radius 5) with plot limit 1. -/
theorem claim_C10_beyond_limit_witness :
    (0 : ℝ) < 1 ∧ (1 : ℝ) < Real.sqrt (3 ^ 2 + 4 ^ 2) ∧
    (1 < Real.sqrt ((radial_exaggerate 3 4 1).1 ^ 2 +
        (radial_exaggerate 3 4 1).2 ^ 2) ∧
      Real.sqrt ((radial_exaggerate 3 4 1).1 ^ 2 +
          (radial_exaggerate 3 4 1).2 ^ 2) <
        Real.sqrt ((3 : ℝ) ^ 2 + 4 ^ 2)) := by
  have h5 : Real.sqrt ((3 : ℝ) ^ 2 + 4 ^ 2) = 5 := by
    rw [show (3 : ℝ) ^ 2 + 4 ^ 2 = 5 ^ 2 by norm_num,
      Real.sqrt_sq (by norm_num : (0 : ℝ) ≤ 5)]
  have h1 : (1 : ℝ) < Real.sqrt ((3 : ℝ) ^ 2 + 4 ^ 2) := by
    rw [h5]
    norm_num
  exact ⟨by norm_num, h1, claim_C10_beyond_limit 3 4 1 (by norm_num) h1⟩

/-! Claim C9: the exaggeration transform never feeds the physics. -/

/-- Provider obtained by post-composing an ephemeris with the display
transform (what the physical computations would see if the code leaked
`radial_exaggerate` into them; the code never builds this). -/
noncomputable def exaggeratedProvider (getXY : String → Date → ℝ × ℝ) :
    String → Date → ℝ × ℝ :=
  fun name t =>
    radial_exaggerate (getXY name t).1 (getXY name t).2 40

/-- Stub ephemeris with Earth at the origin and Mars at (1, 0). -/
noncomputable def stubXY : String → Date → ℝ × ℝ :=
  fun name _ => if name = "mars" then (1, 0) else (0, 0)

lemma sqrt_one_sq : Real.sqrt ((1 : ℝ) ^ 2 + 0 ^ 2) = 1 := by
  rw [show (1 : ℝ) ^ 2 + 0 ^ 2 = 1 ^ 2 by norm_num,
    Real.sqrt_sq (by norm_num : (0 : ℝ) ≤ 1)]

lemma log41_lt : Real.log 41 < 40 * Real.log 2 := by
  have h := Real.log_lt_log (by norm_num : (0 : ℝ) < 41)
    (by norm_num : (41 : ℝ) < 2 ^ 40)
  rwa [Real.log_pow, Nat.cast_ofNat] at h

/-- C9: the physical computations use only raw ephemeris positions — the
Earth–Mars distance is the Euclidean distance of the raw positions and
the transfer-time radii are the hypot of the raw positions — and this is
not vacuous: running the same distance computation through
`radial_exaggerate`-transformed positions gives a different value on a
concrete ephemeris. -/
theorem claim_C9_display_only (getXY : String → Date → ℝ × ℝ) (t : Date) :
    earth_mars_distance getXY t =
      Real.sqrt (((getXY "mars" t).1 - (getXY "earth" t).1) ^ 2 +
        ((getXY "mars" t).2 - (getXY "earth" t).2) ^ 2) ∧
    transferForDate getXY t =
      transferDays
        (Real.sqrt ((getXY "earth" t).1 ^ 2 + (getXY "earth" t).2 ^ 2))
        (Real.sqrt ((getXY "mars" t).1 ^ 2 + (getXY "mars" t).2 ^ 2)) ∧
    earth_mars_distance (exaggeratedProvider stubXY) t ≠
      earth_mars_distance stubXY t := by
  refine ⟨rfl, rfl, ?_⟩
  have hne : ¬("earth" : String) = "mars" := by decide
  have hraw : earth_mars_distance stubXY t = 1 := by
    unfold earth_mars_distance stubXY
    rw [if_neg hne, if_pos rfl]
    norm_num
  have hexE : exaggeratedProvider stubXY "earth" t = (0, 0) := by
    unfold exaggeratedProvider stubXY
    rw [if_neg hne]
    exact radial_exaggerate_origin 40
  have hexM : exaggeratedProvider stubXY "mars" t =
      radial_exaggerate 1 0 40 := by
    unfold exaggeratedProvider stubXY
    rw [if_pos rfl]
  have hr1 : (0 : ℝ) < Real.sqrt ((1 : ℝ) ^ 2 + 0 ^ 2) := by
    rw [sqrt_one_sq]
    norm_num
  have hl41 : 0 < Real.log (1 + (40 : ℝ)) :=
    Real.log_pos (by norm_num)
  have hrn : 0 ≤ Real.log (1 + Real.sqrt ((1 : ℝ) ^ 2 + 0 ^ 2)) /
      Real.log (1 + 40) * 40 := by
    have hlr : 0 < Real.log (1 + Real.sqrt ((1 : ℝ) ^ 2 + 0 ^ 2)) :=
      Real.log_pos (by rw [sqrt_one_sq]; norm_num)
    positivity
  have hdist2 : earth_mars_distance (exaggeratedProvider stubXY) t =
      Real.log (1 + Real.sqrt ((1 : ℝ) ^ 2 + 0 ^ 2)) /
        Real.log (1 + 40) * 40 := by
    unfold earth_mars_distance
    rw [hexE, hexM]
    dsimp only
    rw [sub_zero, sub_zero]
    exact radial_exaggerate_radius 1 0 40 hr1 hrn
  have hgt : 1 < Real.log (1 + Real.sqrt ((1 : ℝ) ^ 2 + 0 ^ 2)) /
      Real.log (1 + 40) * 40 := by
    rw [sqrt_one_sq, show (1 : ℝ) + 1 = 2 by norm_num,
      show (1 : ℝ) + 40 = 41 by norm_num]
    have hl : 0 < Real.log (41 : ℝ) := Real.log_pos (by norm_num)
    rw [div_mul_eq_mul_div, one_lt_div hl]
    linarith [log41_lt]
  rw [hdist2, hraw]
  exact ne_of_gt hgt

end SolarSystemOrbits
